import Mathlib

/-!
Shallow embedding of `packages/@react-spectrum/dnd/src/useDnDHooks.ts`.

The file models the data the hook manipulates (drop targets, drop events,
dragged items, the option record `DnDOptions`), the three mutable refs
(`isDragging`, `isInternalDropRef`, `lastDropTarget`) as an explicit `Refs`
state record, and the handlers the hook synthesizes (`onDragStart`,
`onDragEnd`, `onDrop`, the default `getDropOperation`) as pure functions
from the current ref state.  The asynchronous `onDrop` handler is embedded
as a trace: it returns the updated ref state together with the ordered list
of observable steps it performs (each `await item.getText(...)` and each
invocation of a user callback), plus a flag recording whether the code
reached a call of an `undefined` callback (a TypeError in JavaScript).

User-supplied callbacks are opaque to the adapter, so they are modelled as
identifiers (`Nat`); an invocation is recorded in the trace together with
the exact arguments the code passes.
-/

namespace UseDnDHooks

/-- The `DropOperation` enum of `@react-types/shared`. -/
inductive DropOperation where
  | move
  | copy
  | link
  | cancel
deriving DecidableEq, Repr

/-- The `DropPosition` enum: where relative to an item a drop lands. -/
inductive DropPosition where
  | before
  | after
  | on
deriving DecidableEq, Repr

/-- React `Key`, modelled as `Nat`. -/
abbrev Key := Nat

/-- A `DropTarget`: the collection root, or an item with a drop position. -/
inductive DropTarget where
  | root
  | item (key : Key) (dropPosition : DropPosition)
deriving DecidableEq, Repr

/-- The `kind` discriminant of a dropped item (`'text' | 'file' | 'directory'`). -/
inductive DropItemKind where
  | text
  | file
  | directory
deriving DecidableEq, Repr

/-- A dropped item as seen by `onDrop`: its kind, its set of declared drag
types (`item.types`, a JS `Set<string>` modelled as a list), and its
`getText` accessor; the promise returned by `getText(type)` is modelled by
the string it resolves to. -/
structure DropItem where
  kind : DropItemKind
  types : List String
  getText : String → String

/-- A `DroppableCollectionDropEvent` restricted to the fields `onDrop` reads. -/
structure DropEvent where
  target : DropTarget
  dropOperation : DropOperation
  items : List DropItem

/-- The `acceptedDragTypes` option: the sentinel string `'all'` or an array
of type strings. -/
inductive AcceptedDragTypes where
  | all
  | list (types : List String)
deriving DecidableEq, Repr

/-- What JavaScript `for (let acceptedType of acceptedDragTypes)` iterates
over.  When the option is an array, its elements in order; when it is the
default string `'all'`, `for...of` iterates the string's characters, i.e.
the one-character strings "a", "l", "l". -/
def AcceptedDragTypes.iterate : AcceptedDragTypes → List String
  | .all => ["a", "l", "l"]
  | .list types => types

/-- The `acceptedDragTypes.includes(type)` test as used inside the default
`getDropOperation`.  The `.all` case is never consulted there because the
`acceptedDragTypes === 'all'` disjunct short-circuits first; we give it the
JavaScript `String.prototype.includes` (substring) meaning on `'all'`. -/
def AcceptedDragTypes.includes : AcceptedDragTypes → String → Bool
  | .all, s => ("all".splitOn s).length > 1 || s = ""
  | .list types, s => types.contains s

/-- Drag-start / drag-end events are opaque to the adapter. -/
abbrev DragStartEvent := Nat

/-- Drag-end events are opaque to the adapter. -/
abbrev DragEndEvent := Nat

/-- An opaque identifier for a caller-supplied callback. -/
abbrev Callback := Nat

/-- The three `useRef` cells of `useDnDHooks`, as one state record:
`isDragging.current`, `isInternalDropRef.current`, `lastDropTarget.current`
(initialised to `false`, `false`, `null`). -/
structure Refs where
  isDragging : Bool
  isInternalDrop : Bool
  lastDropTarget : Option DropTarget
deriving DecidableEq, Repr

/-- The `DnDOptions` record of caller-supplied configuration.  Every field
is optional in TypeScript; `none` models an absent key.  `extra` stands for
any further configuration field of the (large) `DraggableCollectionProps &
DroppableCollectionProps` union that the adapter itself never reads and
only forwards. -/
structure DnDOptions where
  getItems : Option (List Key → List (List (String × String))) := none
  onDragStart : Option Callback := none
  onDragEnd : Option Callback := none
  onInsert : Option Callback := none
  onReorder : Option Callback := none
  onRootDrop : Option Callback := none
  onItemDrop : Option Callback := none
  onDrop : Option Callback := none
  getDropOperation : Option Callback := none
  isValidDropTarget : Option (Key → Bool) := none
  acceptedDragTypes : Option AcceptedDragTypes := none
  extra : Option Nat := none

/-- The destructuring default `acceptedDragTypes = 'all'` at the top of
`useDnDHooks`. -/
def DnDOptions.acceptedOrDefault (opts : DnDOptions) : AcceptedDragTypes :=
  opts.acceptedDragTypes.getD .all

/-- One recorded invocation of a caller-supplied callback from the
synthesized `onDrop`, with the arguments the code passes. -/
inductive DispatchCall where
  | onDropProp (cb : Callback) (e : DropEvent)
  | onRootDrop (cb : Callback) (items : List String) (dropOperation : DropOperation)
  | onItemDrop (cb : Callback) (items : List String) (dropOperation : DropOperation) (targetKey : Key)
  | onReorder (cb : Callback) (items : List String) (targetKey : Key) (dropPosition : DropPosition)
  | onInsert (cb : Callback) (items : List String) (dropOperation : DropOperation) (targetKey : Key) (dropPosition : DropPosition)

/-- One observable step of the asynchronous `onDrop` handler: an awaited
`item.getText(acceptedType)` (the only asynchronous construct in the
handler) or a synchronous callback invocation. -/
inductive Step where
  | awaitGetText (acceptedType : String) (data : String)
  | call (c : DispatchCall)

/-- Whether a step is an asynchronous one (an `await`). -/
def Step.isAsync : Step → Bool
  | .awaitGetText _ _ => true
  | .call _ => false

/-- The callback invocations contained in a trace, in order. -/
def stepCalls (steps : List Step) : List DispatchCall :=
  steps.filterMap fun s => match s with
    | .call c => some c
    | .awaitGetText _ _ => none

/-- The `(acceptedType, data)` pairs produced by the nested `for` loops of
the synthesized `onDrop`, in execution order: for each dropped item in
order, for each `acceptedType` the `for...of` yields in order, the loop
body awaits `item.getText(acceptedType)` exactly when
`item.kind === 'text' && item.types.has(acceptedType)`. -/
def extractedPairs (acceptedIter : List String) (items : List DropItem) : List (String × String) :=
  items.flatMap fun item =>
    acceptedIter.filterMap fun ty =>
      if item.kind = .text ∧ item.types.contains ty then
        some (ty, item.getText ty)
      else
        none

/-- The `dataList` the synthesized `onDrop` accumulates for a drop event. -/
def dropDataList (opts : DnDOptions) (e : DropEvent) : List String :=
  (extractedPairs opts.acceptedOrDefault.iterate e.items).map Prod.snd

/-- The result of running the synthesized `onDrop` handler: the ref state
it leaves behind, the trace of observable steps, and whether the code
called an `undefined` callback (a JavaScript TypeError). -/
structure DropResult where
  refs : Refs
  steps : List Step
  error : Bool

/-- The dispatch part at the end of the synthesized `onDrop` (lines
199-207): `if (target.type === 'root') onRootDrop(...)` etc.  Calling an
absent callback is the error branch. -/
def dispatchSteps (opts : DnDOptions) (e : DropEvent) (isInternalDrop : Bool)
    (dataList : List String) : List Step × Bool :=
  match e.target with
  | .root =>
      match opts.onRootDrop with
      | some cb => ([.call (.onRootDrop cb dataList e.dropOperation)], false)
      | none => ([], true)
  | .item key pos =>
      if pos = .on then
        match opts.onItemDrop with
        | some cb => ([.call (.onItemDrop cb dataList e.dropOperation key)], false)
        | none => ([], true)
      else if isInternalDrop then
        match opts.onReorder with
        | some cb => ([.call (.onReorder cb dataList key pos)], false)
        | none => ([], true)
      else
        match opts.onInsert with
        | some cb => ([.call (.onInsert cb dataList e.dropOperation key pos)], false)
        | none => ([], true)

/-- The `onDrop` handler built by `useDnDHooks` (lines 160-209).  It first
captures `isDragging.current` into the local `isInternalDrop`, writes the
refs (`isInternalDropRef.current = isDragging.current`,
`lastDropTarget.current = e.target`), then either forwards the event to a
caller-supplied `onDrop`, or extracts the text of the accepted items and
dispatches one of `onRootDrop` / `onItemDrop` / `onReorder` / `onInsert`. -/
def runOnDrop (opts : DnDOptions) (e : DropEvent) (r : Refs) : DropResult :=
  let isInternalDrop := r.isDragging
  let r' : Refs :=
    { r with isInternalDrop := r.isDragging, lastDropTarget := some e.target }
  match opts.onDrop with
  | some cb => { refs := r', steps := [.call (.onDropProp cb e)], error := false }
  | none =>
      let pairs := extractedPairs opts.acceptedOrDefault.iterate e.items
      let extraction := pairs.map fun p => Step.awaitGetText p.1 p.2
      let dataList := pairs.map Prod.snd
      let dispatched := dispatchSteps opts e isInternalDrop dataList
      { refs := r', steps := extraction ++ dispatched.1, error := dispatched.2 }

/-- The type-acceptance test on line 217:
`acceptedDragTypes === 'all' || draggedTypes.every(type => acceptedDragTypes.includes(type))`
(the second disjunct is short-circuited away when the option is `'all'`). -/
def typesAccepted (accepted : AcceptedDragTypes) (draggedTypes : List String) : Bool :=
  accepted = .all || draggedTypes.all fun ty => accepted.includes ty

/-- The handler-availability disjunction on lines 219-224 of the default
`getDropOperation`, with `isDragging.current` passed in explicitly. -/
def dropAllowedFor (opts : DnDOptions) (isDragging : Bool) (target : DropTarget) : Bool :=
  (opts.onInsert.isSome && (match target with | .item _ _ => true | .root => false)
      && !isDragging
      && (match target with
          | .item _ pos => pos = .before || pos = .after
          | .root => false)) ||
  (opts.onReorder.isSome && (match target with | .item _ _ => true | .root => false)
      && isDragging
      && (match target with
          | .item _ pos => pos = .before || pos = .after
          | .root => false)) ||
  (opts.onRootDrop.isSome && (match target with | .root => true | .item _ _ => false)
      && !isDragging) ||
  (opts.onItemDrop.isSome && (match target with | .item _ _ => true | .root => false)
      && (match target with
          | .item _ pos => pos = .on
          | .root => false)
      && (match opts.isValidDropTarget with
          | none => true
          | some valid => match target with
              | .item key _ => valid key
              | .root => false))

/-- The default `getDropOperation` built by `useDnDHooks` (lines 213-233).
`draggedTypes` is `[...typesSet.values()]` where `typesSet` is
`types.types ? types.types : types` — i.e. the set of dragged type
strings, which we take directly; `allowedOperations[0]` on an empty array
is JavaScript `undefined`, modelled as `none` via `head?`. -/
def defaultGetDropOperation (opts : DnDOptions) (isDragging : Bool)
    (target : DropTarget) (draggedTypes : List String)
    (allowedOperations : List DropOperation) : Option DropOperation :=
  if typesAccepted opts.acceptedOrDefault draggedTypes
      && dropAllowedFor opts isDragging target then
    allowedOperations.head?
  else
    some .cancel

/-- A recorded invocation of a caller-supplied drag handler by one of the
wrapped handlers, with the arguments the code passes (the wrapped
`onDragEnd` forwards `lastDropTarget.current` and
`isInternalDropRef.current` as read before they are reset). -/
inductive DragCall where
  | userDragStart (cb : Callback) (e : DragStartEvent)
  | userDragEnd (cb : Callback) (e : DragEndEvent)
      (lastDropTarget : Option DropTarget) (isInternalDrop : Bool)
deriving DecidableEq, Repr

/-- The wrapped `onDragStart` (lines 136-141): set `isDragging.current`,
then invoke the caller's `onDragStart` when provided. -/
def wrappedOnDragStart (opts : DnDOptions) (e : DragStartEvent) (r : Refs) :
    Refs × List DragCall :=
  let r1 : Refs := { r with isDragging := true }
  (r1,
   match opts.onDragStart with
   | some cb => [.userDragStart cb e]
   | none => [])

/-- The wrapped `onDragEnd` (lines 142-152): clear `isDragging.current`,
invoke the caller's `onDragEnd` (when provided) with the current
`lastDropTarget` and `isInternalDropRef` values, then reset both refs. -/
def wrappedOnDragEnd (opts : DnDOptions) (e : DragEndEvent) (r : Refs) :
    Refs × List DragCall :=
  let r1 : Refs := { r with isDragging := false }
  let calls :=
    match opts.onDragEnd with
    | some cb => [DragCall.userDragEnd cb e r1.lastDropTarget r1.isInternalDrop]
    | none => []
  let r2 : Refs := { r1 with isInternalDrop := false }
  let r3 : Refs := { r2 with lastDropTarget := none }
  (r3, calls)

/-- JavaScript object-spread on one optional field: the right operand wins
when it carries the key. -/
def spreadField (a b : Option α) : Option α :=
  match b with
  | some x => some x
  | none => a

/-- JavaScript object spread `{...a, ...b}` over the modelled fields. -/
def DnDOptions.merge (a b : DnDOptions) : DnDOptions where
  getItems := spreadField a.getItems b.getItems
  onDragStart := spreadField a.onDragStart b.onDragStart
  onDragEnd := spreadField a.onDragEnd b.onDragEnd
  onInsert := spreadField a.onInsert b.onInsert
  onReorder := spreadField a.onReorder b.onReorder
  onRootDrop := spreadField a.onRootDrop b.onRootDrop
  onItemDrop := spreadField a.onItemDrop b.onItemDrop
  onDrop := spreadField a.onDrop b.onDrop
  getDropOperation := spreadField a.getDropOperation b.getDropOperation
  isValidDropTarget := spreadField a.isValidDropTarget b.isValidDropTarget
  acceptedDragTypes := spreadField a.acceptedDragTypes b.acceptedDragTypes
  extra := spreadField a.extra b.extra

/-- The default-filled leftmost operand of the `useDraggableCollectionState`
argument object: `{getItems: () => [], ...}`. -/
def dragStateDefaults : DnDOptions where
  getItems := some fun _ => []

/-- The argument object passed to the downstream
`useDraggableCollectionState` (lines 132-153): the spread-merged fields,
with `onDragStart` and `onDragEnd` overridden by the wrapped handlers (the
merged values of those two keys are shadowed by the trailing method
definitions, so `fields` clears them). -/
structure DraggableStateArgs where
  fields : DnDOptions
  onDragStart : DragStartEvent → Refs → Refs × List DragCall
  onDragEnd : DragEndEvent → Refs → Refs × List DragCall

/-- Build the `useDraggableCollectionState` argument from the hook's
`options` and the call-site `props`
(`{getItems: () => [], ...props, ...options, onDragStart(..), onDragEnd(..)}`). -/
def useDraggableCollectionStateArgs (opts props : DnDOptions) : DraggableStateArgs where
  fields :=
    { (dragStateDefaults.merge props).merge opts with
        onDragStart := none, onDragEnd := none }
  onDragStart := wrappedOnDragStart opts
  onDragEnd := wrappedOnDragEnd opts

/-- Which function fills the `getDropOperation` slot of the
`useDroppableCollectionState` argument: the synthesized default, or a
caller-supplied one. -/
inductive GetDropOpSlot where
  | synthesized
  | user (cb : Callback)
deriving DecidableEq, Repr

/-- The argument object passed to the downstream
`useDroppableCollectionState` (line 238), i.e.
`{getDropOperation, ...props, ...options}`: the merged fields, and the
`getDropOperation` slot (the synthesized default unless `props` or
`options` carries the key; `fields` clears the merged key since the slot is
authoritative). -/
structure DroppableStateArgs where
  fields : DnDOptions
  getDropOperation : GetDropOpSlot

/-- Build the `useDroppableCollectionState` argument. -/
def useDroppableCollectionStateArgs (opts props : DnDOptions) : DroppableStateArgs where
  fields := { props.merge opts with getDropOperation := none }
  getDropOperation :=
    match spreadField props.getDropOperation opts.getDropOperation with
    | some cb => .user cb
    | none => .synthesized

/-- The argument object passed to the downstream `useDroppableCollection`
(line 242), i.e. `{...props, ...options, onDrop}`: the merged fields with
the `onDrop` key overridden by the synthesized handler (`fields` clears
the merged key since the trailing `onDrop` shadows it). -/
structure DroppableCollectionArgs where
  fields : DnDOptions
  onDrop : DropEvent → Refs → DropResult

/-- Build the `useDroppableCollection` argument. -/
def useDroppableCollectionArgs (opts props : DnDOptions) : DroppableCollectionArgs where
  fields := { props.merge opts with onDrop := none }
  onDrop := runOnDrop opts

/-- Concrete options used to exhibit behaviours at specific inputs. -/
def sampleRootOpts : DnDOptions := { onRootDrop := some 1 }

/-- A dropped text item declaring the common `text/plain` type. -/
def plainTextItem : DropItem :=
  { kind := .text, types := ["text/plain"], getText := fun _ => "hello" }

/-- A dropped text item whose declared type is the one-character string "l". -/
def elTypeItem : DropItem :=
  { kind := .text, types := ["l"], getText := fun ty => ty ++ "-data" }

/-- A drop event on the collection root carrying `plainTextItem`. -/
def rootDropPlainEvent : DropEvent :=
  { target := .root, dropOperation := .move, items := [plainTextItem] }

/-- A drop event on the collection root carrying `elTypeItem`. -/
def rootDropElEvent : DropEvent :=
  { target := .root, dropOperation := .move, items := [elTypeItem] }

/-- The initial ref state (`useRef(false)`, `useRef(false)`, `useRef(null)`). -/
def initialRefs : Refs := { isDragging := false, isInternalDrop := false, lastDropTarget := none }

/-- The branch condition of claim C3, written from the claim's words
(refinement-spec side): (i) `acceptedDragTypes` is 'all' or every dragged
type is contained in it, and (ii) one of the four intent/target/drag-state
combinations holds. -/
def C3SpecCond (opts : DnDOptions) (isDragging : Bool) (target : DropTarget)
    (draggedTypes : List String) : Prop :=
  (opts.acceptedOrDefault = .all ∨
    ∀ ty ∈ draggedTypes, opts.acceptedOrDefault.includes ty = true) ∧
  ((opts.onInsert.isSome = true ∧ isDragging = false ∧
      ∃ k, target = DropTarget.item k .before ∨ target = DropTarget.item k .after) ∨
   (opts.onReorder.isSome = true ∧ isDragging = true ∧
      ∃ k, target = DropTarget.item k .before ∨ target = DropTarget.item k .after) ∨
   (opts.onRootDrop.isSome = true ∧ isDragging = false ∧ target = DropTarget.root) ∨
   (opts.onItemDrop.isSome = true ∧
      ∃ k, target = DropTarget.item k .on ∧
        (opts.isValidDropTarget = none ∨
         ∃ valid, opts.isValidDropTarget = some valid ∧ valid k = true)))

/-- The trace shape claim C5 asserts of the synthesized `onDrop` (spec
side): the trace is a block of text-extraction awaits followed by at most
one synchronous callback invocation; every asynchronous step is a text
extraction; and every accepted dropped text item has its text awaited
before the dispatch. -/
def AwaitsThenDispatch (opts : DnDOptions) (e : DropEvent) (res : DropResult) : Prop :=
  ∃ awaits dispatched,
    res.steps = awaits ++ dispatched ∧
    (∀ s ∈ awaits, ∃ ty data, s = Step.awaitGetText ty data) ∧
    (∀ s ∈ dispatched, (∃ c, s = Step.call c) ∧ s.isAsync = false) ∧
    dispatched.length ≤ 1 ∧
    (∀ s ∈ res.steps, s.isAsync = true → ∃ ty data, s = Step.awaitGetText ty data) ∧
    (∀ item ∈ e.items, ∀ ty ∈ opts.acceptedOrDefault.iterate,
      item.kind = .text → item.types.contains ty = true →
      Step.awaitGetText ty (item.getText ty) ∈ awaits)

/-- A caller-provided optional field reaches the downstream hook unchanged
(spec side of claim C8). -/
def forwardsField (v merged : Option α) : Prop :=
  v.isSome = true → merged = v

/-- Caller options with every modelled field provided, used as the
concrete input of the C8 witness. -/
def fullOpts : DnDOptions where
  getItems := some fun _ => [[("text/plain", "d")]]
  onDragStart := some 1
  onDragEnd := some 2
  onInsert := some 3
  onReorder := some 4
  onRootDrop := some 5
  onItemDrop := some 6
  onDrop := some 7
  getDropOperation := some 8
  isValidDropTarget := some fun _ => true
  acceptedDragTypes := some (.list ["x"])
  extra := some 9

/-! Helper lemmas about traces. -/

theorem stepCalls_append (a b : List Step) :
    stepCalls (a ++ b) = stepCalls a ++ stepCalls b := by
  simp [stepCalls]

theorem stepCalls_awaits (ps : List (String × String)) :
    stepCalls (ps.map fun p => Step.awaitGetText p.1 p.2) = [] := by
  induction ps with
  | nil => rfl
  | cons p ps ih => simp [stepCalls]

/-- Claim C1: with no caller-supplied `onDrop`, when the drop target is an
item with drop position 'before' or 'after' (and the `onReorder` /
`onInsert` intents the claim dispatches to are provided), the synthesized
`onDrop` invokes `onReorder` exactly when the internal 'is currently
dragging' flag is true at the moment the drop event arrives, and `onInsert`
otherwise. -/
theorem C1_reorder_iff_dragging (opts : DnDOptions) (e : DropEvent) (r : Refs)
    (rcb icb : Callback) (k : Key) (pos : DropPosition)
    (hnd : opts.onDrop = none)
    (hre : opts.onReorder = some rcb) (hin : opts.onInsert = some icb)
    (htg : e.target = .item k pos)
    (hpos : pos = .before ∨ pos = .after) :
    stepCalls (runOnDrop opts e r).steps =
      if r.isDragging then
        [DispatchCall.onReorder rcb (dropDataList opts e) k pos]
      else
        [DispatchCall.onInsert icb (dropDataList opts e) e.dropOperation k pos] := by
  rcases hpos with h | h <;> subst h <;>
    cases hd : r.isDragging <;>
      simp [runOnDrop, hnd, htg, hd, dispatchSteps, hre, hin,
        stepCalls_append, stepCalls_awaits, stepCalls, dropDataList]

/-- Witness for C1 at a concrete input: a drop before item 5 while a
same-collection drag is in progress dispatches `onReorder`. -/
theorem C1_reorder_iff_dragging_witness :
    stepCalls (runOnDrop { onReorder := some 2, onInsert := some 3 }
        { target := .item 5 .before, dropOperation := .move, items := [] }
        { initialRefs with isDragging := true }).steps =
      [DispatchCall.onReorder 2 [] 5 .before] := by
  have h := C1_reorder_iff_dragging { onReorder := some 2, onInsert := some 3 }
    { target := .item 5 .before, dropOperation := .move, items := [] }
    { initialRefs with isDragging := true } 2 3 5 .before rfl rfl rfl rfl (Or.inl rfl)
  exact h.trans (by rfl)

/-- Claim C2 fails on the code: with `acceptedDragTypes` left at its
default `'all'`, the `for...of` loop in the synthesized `onDrop` iterates
the characters of the string `'all'` ("a", "l", "l"), so a dropped text
item of type `text/plain` contributes nothing to the data list (the claim
requires its extracted text to be included), while an item declaring the
one-character type "l" has its text awaited and pushed twice. -/
theorem C2_default_all_filters_by_characters :
    dropDataList sampleRootOpts rootDropPlainEvent = [] ∧
    stepCalls (runOnDrop sampleRootOpts rootDropPlainEvent initialRefs).steps =
      [DispatchCall.onRootDrop 1 [] DropOperation.move] ∧
    dropDataList sampleRootOpts rootDropElEvent = ["l-data", "l-data"] := by
  refine ⟨rfl, ?_, rfl⟩
  simp [runOnDrop, sampleRootOpts, rootDropPlainEvent, dispatchSteps,
    stepCalls_append, stepCalls_awaits, stepCalls, extractedPairs,
    DnDOptions.acceptedOrDefault, AcceptedDragTypes.iterate, plainTextItem]

/-- Claim C4: after the wrapped `onDragEnd` handler runs for any drag-end
event, all three drag-tracking refs are reset: the 'is currently dragging'
flag is false, the internal-drop flag is false, and the 'last drop target'
ref is null. -/
theorem C4_drag_end_resets_refs (opts : DnDOptions) (e : DragEndEvent) (r : Refs) :
    (wrappedOnDragEnd opts e r).1 =
      { isDragging := false, isInternalDrop := false, lastDropTarget := none } := by
  rfl

/-- Claim C9: the default `getDropOperation` never allows a drop on the
collection's root while a same-collection drag is in progress: with the
'is currently dragging' flag true and a root target it returns 'cancel',
for every option record (in particular even when `onRootDrop` is provided)
and all dragged types and allowed operations. -/
theorem C9_no_internal_root_drop (opts : DnDOptions) (draggedTypes : List String)
    (ops : List DropOperation) :
    defaultGetDropOperation opts true .root draggedTypes ops = some .cancel := by
  simp [defaultGetDropOperation, dropAllowedFor]

/-- The source-side boolean guard of the default `getDropOperation` is
equivalent to the claim's condition. -/
theorem guard_iff_C3SpecCond (opts : DnDOptions) (d : Bool) (target : DropTarget)
    (tys : List String) :
    (typesAccepted opts.acceptedOrDefault tys && dropAllowedFor opts d target) = true ↔
      C3SpecCond opts d target tys := by
  have hvalid :
      (match opts.isValidDropTarget with
        | none => true
        | some valid =>
            match target with
            | .item key _ => valid key
            | .root => false) = true ↔
      (opts.isValidDropTarget = none ∨
        ∃ valid, opts.isValidDropTarget = some valid ∧
          (match target with
            | .item key _ => valid key
            | .root => false) = true) := by
    cases opts.isValidDropTarget <;> simp
  rcases target with _ | ⟨k, pos⟩
  · cases d <;>
      simp_all [typesAccepted, dropAllowedFor, C3SpecCond, List.all_eq_true]
  · cases d <;> cases pos <;>
      simp_all [typesAccepted, dropAllowedFor, C3SpecCond, List.all_eq_true]

/-- Claim C3: when the caller supplies no `getDropOperation`, the default
one returns the first element of `allowedOperations` exactly when (i) the
dragged types pass the accepted-types test and (ii) one of the four
intent/target/drag-state combinations described by the claim holds, and
returns 'cancel' in every other case (`allowedOperations[0]` on an empty
array being JavaScript `undefined`, i.e. `List.head?`). -/
theorem C3_default_getDropOperation (opts : DnDOptions) (d : Bool)
    (target : DropTarget) (tys : List String) (ops : List DropOperation) :
    (C3SpecCond opts d target tys →
        defaultGetDropOperation opts d target tys ops = ops.head?) ∧
    (¬ C3SpecCond opts d target tys →
        defaultGetDropOperation opts d target tys ops = some .cancel) := by
  constructor <;> intro h
  · have hb := (guard_iff_C3SpecCond opts d target tys).mpr h
    simp [defaultGetDropOperation, hb]
  · have hb : (typesAccepted opts.acceptedOrDefault tys
        && dropAllowedFor opts d target) = false := by
      cases hb' : (typesAccepted opts.acceptedOrDefault tys
          && dropAllowedFor opts d target)
      · rfl
      · exact absurd ((guard_iff_C3SpecCond opts d target tys).mp hb') h
    simp [defaultGetDropOperation, hb]

/-- Witness for C3 at concrete inputs: an on-item drop with `onItemDrop`
provided and a validating `isValidDropTarget` yields the first allowed
operation, while the same target with no intents provided yields 'cancel'. -/
theorem C3_default_getDropOperation_witness :
    defaultGetDropOperation
        { onItemDrop := some 4, isValidDropTarget := some fun k => k == 7 }
        false (.item 7 .on) ["x"] [.copy, .move] = some .copy ∧
    defaultGetDropOperation {} false (.item 7 .on) [] [.copy] = some .cancel := by
  constructor
  · exact (C3_default_getDropOperation _ _ _ _ _).1
      ⟨Or.inl rfl,
       Or.inr (Or.inr (Or.inr ⟨rfl, 7, rfl, Or.inr ⟨_, rfl, rfl⟩⟩))⟩
  · refine (C3_default_getDropOperation _ _ _ _ _).2 ?_
    rintro ⟨-, h | h | h | h⟩ <;> simp_all

/-- The dispatch part of the synthesized `onDrop` is at most one
synchronous callback invocation. -/
theorem dispatchSteps_shape (opts : DnDOptions) (e : DropEvent) (b : Bool)
    (dl : List String) :
    (dispatchSteps opts e b dl).1 = [] ∨
      ∃ c, (dispatchSteps opts e b dl).1 = [Step.call c] := by
  obtain ⟨target, dop, items⟩ := e
  rcases target with _ | ⟨k, pos⟩
  · rcases hcb : opts.onRootDrop with _ | cb <;> simp [dispatchSteps, hcb]
  · by_cases hp : pos = .on
    · rcases hcb : opts.onItemDrop with _ | cb <;> simp [dispatchSteps, hp, hcb]
    · cases b
      · rcases hcb : opts.onInsert with _ | cb <;> simp [dispatchSteps, hp, hcb]
      · rcases hcb : opts.onReorder with _ | cb <;> simp [dispatchSteps, hp, hcb]

/-- The extraction loop produces a pair for every accepted item/type
combination. -/
theorem mem_extractedPairs (acceptedIter : List String) (items : List DropItem)
    (item : DropItem) (ty : String) (hi : item ∈ items) (ht : ty ∈ acceptedIter)
    (hk : item.kind = .text) (hc : item.types.contains ty = true) :
    (ty, item.getText ty) ∈ extractedPairs acceptedIter items := by
  unfold extractedPairs
  refine List.mem_flatMap.mpr ⟨item, hi, ?_⟩
  refine List.mem_filterMap.mpr ⟨ty, ht, ?_⟩
  have hmem : ty ∈ item.types := by simpa using hc
  simp [hk, hmem]

/-- Claim C5: in the synthesized `onDrop` (no caller-supplied `onDrop`),
the user callback is dispatched only after the text of every accepted
dropped item has been awaited and collected, and text extraction is the
only asynchronous step in the handler. -/
theorem C5_awaits_before_dispatch (opts : DnDOptions) (e : DropEvent) (r : Refs)
    (h : opts.onDrop = none) :
    AwaitsThenDispatch opts e (runOnDrop opts e r) := by
  have hsteps : (runOnDrop opts e r).steps =
      ((extractedPairs opts.acceptedOrDefault.iterate e.items).map
        fun p => Step.awaitGetText p.1 p.2) ++
      (dispatchSteps opts e r.isDragging (dropDataList opts e)).1 := by
    simp [runOnDrop, h, dropDataList]
  refine ⟨(extractedPairs opts.acceptedOrDefault.iterate e.items).map
      (fun p => Step.awaitGetText p.1 p.2),
    (dispatchSteps opts e r.isDragging (dropDataList opts e)).1,
    hsteps, ?_, ?_, ?_, ?_, ?_⟩
  · intro s hs
    rcases List.mem_map.mp hs with ⟨p, _, rfl⟩
    exact ⟨p.1, p.2, rfl⟩
  · intro s hs
    rcases dispatchSteps_shape opts e r.isDragging (dropDataList opts e) with hd | ⟨c, hd⟩
    · rw [hd] at hs
      cases hs
    · rw [hd] at hs
      rcases List.mem_singleton.mp hs with rfl
      exact ⟨⟨c, rfl⟩, rfl⟩
  · rcases dispatchSteps_shape opts e r.isDragging (dropDataList opts e) with hd | ⟨c, hd⟩ <;>
      simp [hd]
  · intro s hs hasync
    rw [hsteps] at hs
    rcases List.mem_append.mp hs with hs' | hs'
    · rcases List.mem_map.mp hs' with ⟨p, _, rfl⟩
      exact ⟨p.1, p.2, rfl⟩
    · rcases dispatchSteps_shape opts e r.isDragging (dropDataList opts e) with hd | ⟨c, hd⟩
      · rw [hd] at hs'
        cases hs'
      · rw [hd] at hs'
        rcases List.mem_singleton.mp hs' with rfl
        cases hasync
  · intro item hi ty ht hk hc
    exact List.mem_map.mpr
      ⟨(ty, item.getText ty),
       mem_extractedPairs opts.acceptedOrDefault.iterate e.items item ty hi ht hk hc, rfl⟩

/-- Witness for C5 at a concrete input: the root drop of a `text/plain`
item with no caller-supplied `onDrop` has the claimed trace shape. -/
theorem C5_awaits_before_dispatch_witness :
    AwaitsThenDispatch sampleRootOpts rootDropPlainEvent
      (runOnDrop sampleRootOpts rootDropPlainEvent initialRefs) :=
  C5_awaits_before_dispatch sampleRootOpts rootDropPlainEvent initialRefs rfl

/-- Claim C6: if the caller does not supply `getItems` (the downstream
`props` cannot carry it either, its TypeScript type omits the key), the
draggable collection state is created with a default `getItems` returning
the empty array for every set of keys. -/
theorem C6_default_getItems (opts props : DnDOptions)
    (ho : opts.getItems = none) (hp : props.getItems = none) :
    ∃ f, (useDraggableCollectionStateArgs opts props).fields.getItems = some f ∧
      ∀ keys, f keys = [] := by
  refine ⟨fun _ => [], ?_, fun _ => rfl⟩
  simp [useDraggableCollectionStateArgs, DnDOptions.merge, dragStateDefaults,
    spreadField, ho, hp]

/-- Witness for C6 at a concrete input: with empty option records the
default item getter is installed. -/
theorem C6_default_getItems_witness :
    ∃ f, (useDraggableCollectionStateArgs {} {}).fields.getItems = some f ∧
      ∀ keys, f keys = [] :=
  C6_default_getItems {} {} rfl rfl

/-- Claim C7: if the caller supplies their own `onDrop`, the synthesized
drop handler records the internal-drop flag (from the current dragging
state) and the drop target in the refs, invokes the caller's `onDrop` with
the event as its only step, and performs none of the default item
extraction or dispatch (its trace holds no await and no intent callback
invocation). -/
theorem C7_caller_onDrop_forwarded (opts : DnDOptions) (e : DropEvent) (r : Refs)
    (cb : Callback) (h : opts.onDrop = some cb) :
    runOnDrop opts e r =
      { refs := { r with isInternalDrop := r.isDragging, lastDropTarget := some e.target },
        steps := [Step.call (DispatchCall.onDropProp cb e)],
        error := false } := by
  simp [runOnDrop, h]

/-- Witness for C7 at a concrete input. -/
theorem C7_caller_onDrop_forwarded_witness :
    runOnDrop { onDrop := some 5 } rootDropPlainEvent initialRefs =
      { refs := { isDragging := false, isInternalDrop := false,
                  lastDropTarget := some .root },
        steps := [Step.call (DispatchCall.onDropProp 5 rootDropPlainEvent)],
        error := false } :=
  C7_caller_onDrop_forwarded { onDrop := some 5 } rootDropPlainEvent initialRefs 5 rfl

/-- Claim C10: the synthesized `onDrop` dispatches to the user callbacks
without guarding for their absence: on a drop event targeting an item with
drop position 'on' when the caller provided neither `onDrop` nor
`onItemDrop`, the handler reaches the invocation of an undefined function
(the error branch of the embedded dispatch). -/
theorem C10_unguarded_dispatch_reachable :
    (runOnDrop {} { target := .item 0 .on, dropOperation := .move, items := [] }
        initialRefs).error = true ∧
    stepCalls (runOnDrop {} { target := .item 0 .on, dropOperation := .move, items := [] }
        initialRefs).steps = [] := by
  exact ⟨rfl, rfl⟩

theorem forwardsField_spread (a b : Option α) : forwardsField b (spreadField a b) := by
  intro h
  cases b
  · simp at h
  · rfl

/-- Claim C8: each downstream hook call receives the caller's options
spread over the adapter's defaults: every caller-provided field other than
the overridden ones (the wrapped `onDragStart`/`onDragEnd` in
`useDraggableCollectionState`, the synthesized `onDrop` in
`useDroppableCollection`) reaches the downstream hook unchanged; a
caller-supplied `getDropOperation` displaces the synthesized default in
`useDroppableCollectionState`; and the wrapped handlers still invoke the
caller's own `onDragStart`/`onDragEnd` when provided. -/
theorem C8_options_merged_into_hooks (opts props : DnDOptions) :
    (forwardsField opts.getItems
        (useDraggableCollectionStateArgs opts props).fields.getItems ∧
     forwardsField opts.onInsert
        (useDraggableCollectionStateArgs opts props).fields.onInsert ∧
     forwardsField opts.onReorder
        (useDraggableCollectionStateArgs opts props).fields.onReorder ∧
     forwardsField opts.onRootDrop
        (useDraggableCollectionStateArgs opts props).fields.onRootDrop ∧
     forwardsField opts.onItemDrop
        (useDraggableCollectionStateArgs opts props).fields.onItemDrop ∧
     forwardsField opts.onDrop
        (useDraggableCollectionStateArgs opts props).fields.onDrop ∧
     forwardsField opts.getDropOperation
        (useDraggableCollectionStateArgs opts props).fields.getDropOperation ∧
     forwardsField opts.isValidDropTarget
        (useDraggableCollectionStateArgs opts props).fields.isValidDropTarget ∧
     forwardsField opts.acceptedDragTypes
        (useDraggableCollectionStateArgs opts props).fields.acceptedDragTypes ∧
     forwardsField opts.extra
        (useDraggableCollectionStateArgs opts props).fields.extra) ∧
    (forwardsField opts.getItems
        (useDroppableCollectionStateArgs opts props).fields.getItems ∧
     forwardsField opts.onDragStart
        (useDroppableCollectionStateArgs opts props).fields.onDragStart ∧
     forwardsField opts.onDragEnd
        (useDroppableCollectionStateArgs opts props).fields.onDragEnd ∧
     forwardsField opts.onInsert
        (useDroppableCollectionStateArgs opts props).fields.onInsert ∧
     forwardsField opts.onReorder
        (useDroppableCollectionStateArgs opts props).fields.onReorder ∧
     forwardsField opts.onRootDrop
        (useDroppableCollectionStateArgs opts props).fields.onRootDrop ∧
     forwardsField opts.onItemDrop
        (useDroppableCollectionStateArgs opts props).fields.onItemDrop ∧
     forwardsField opts.onDrop
        (useDroppableCollectionStateArgs opts props).fields.onDrop ∧
     forwardsField opts.isValidDropTarget
        (useDroppableCollectionStateArgs opts props).fields.isValidDropTarget ∧
     forwardsField opts.acceptedDragTypes
        (useDroppableCollectionStateArgs opts props).fields.acceptedDragTypes ∧
     forwardsField opts.extra
        (useDroppableCollectionStateArgs opts props).fields.extra) ∧
    (∀ cb, opts.getDropOperation = some cb →
        (useDroppableCollectionStateArgs opts props).getDropOperation = .user cb) ∧
    (forwardsField opts.getItems
        (useDroppableCollectionArgs opts props).fields.getItems ∧
     forwardsField opts.onDragStart
        (useDroppableCollectionArgs opts props).fields.onDragStart ∧
     forwardsField opts.onDragEnd
        (useDroppableCollectionArgs opts props).fields.onDragEnd ∧
     forwardsField opts.onInsert
        (useDroppableCollectionArgs opts props).fields.onInsert ∧
     forwardsField opts.onReorder
        (useDroppableCollectionArgs opts props).fields.onReorder ∧
     forwardsField opts.onRootDrop
        (useDroppableCollectionArgs opts props).fields.onRootDrop ∧
     forwardsField opts.onItemDrop
        (useDroppableCollectionArgs opts props).fields.onItemDrop ∧
     forwardsField opts.getDropOperation
        (useDroppableCollectionArgs opts props).fields.getDropOperation ∧
     forwardsField opts.isValidDropTarget
        (useDroppableCollectionArgs opts props).fields.isValidDropTarget ∧
     forwardsField opts.acceptedDragTypes
        (useDroppableCollectionArgs opts props).fields.acceptedDragTypes ∧
     forwardsField opts.extra
        (useDroppableCollectionArgs opts props).fields.extra) ∧
    (∀ cb e r, opts.onDragStart = some cb →
        (wrappedOnDragStart opts e r).2 = [.userDragStart cb e]) ∧
    (∀ cb e r, opts.onDragEnd = some cb →
        (wrappedOnDragEnd opts e r).2 =
          [.userDragEnd cb e r.lastDropTarget r.isInternalDrop]) := by
  refine ⟨⟨?_, ?_, ?_, ?_, ?_, ?_, ?_, ?_, ?_, ?_⟩,
          ⟨?_, ?_, ?_, ?_, ?_, ?_, ?_, ?_, ?_, ?_, ?_⟩,
          ?_,
          ⟨?_, ?_, ?_, ?_, ?_, ?_, ?_, ?_, ?_, ?_, ?_⟩,
          ?_, ?_⟩ <;>
    first
      | exact forwardsField_spread _ _
      | (intro cb h
         simp [useDroppableCollectionStateArgs, spreadField, h])
      | (intro cb e r h
         simp [wrappedOnDragStart, h])
      | (intro cb e r h
         simp [wrappedOnDragEnd, h])

/-- Witness for C8 at a concrete input: with every option provided and
empty call-site props, representative fields reach each downstream hook
unchanged, the caller's `getDropOperation` displaces the synthesized
default, and the wrapped handlers invoke the caller's drag callbacks. -/
theorem C8_options_merged_into_hooks_witness :
    (useDraggableCollectionStateArgs fullOpts {}).fields.onInsert = some 3 ∧
    (useDroppableCollectionStateArgs fullOpts {}).fields.onDrop = some 7 ∧
    (useDroppableCollectionStateArgs fullOpts {}).getDropOperation = .user 8 ∧
    (useDroppableCollectionArgs fullOpts {}).fields.acceptedDragTypes =
      some (.list ["x"]) ∧
    (wrappedOnDragStart fullOpts 0 initialRefs).2 = [.userDragStart 1 0] ∧
    (wrappedOnDragEnd fullOpts 0 initialRefs).2 = [.userDragEnd 2 0 none false] := by
  obtain ⟨hdrag, hstate, hslot, hcoll, hstart, hend⟩ :=
    C8_options_merged_into_hooks fullOpts {}
  exact ⟨hdrag.2.1 rfl, hstate.2.2.2.2.2.2.2.1 rfl, hslot 8 rfl,
    hcoll.2.2.2.2.2.2.2.2.2.1 rfl, hstart 1 0 initialRefs rfl,
    hend 2 0 initialRefs rfl⟩

end UseDnDHooks
